import Mathlib

/-!
Verification development for the Tixoraa verification-code lifecycle.

The definitions below are a shallow embedding of the verification-code core:

* the `verification_codes` table and its operations `saveVerificationCode`,
  `checkVerificationCode`, `markVerificationCodeAsUsed` from
  `test-verification-code.js`;
* the code generators `generateVerificationCode` from
  `test-verification-code.js` (`Math.floor(100000 + Math.random() * 900000)`)
  and the per-digit variant from the unnamed SendGrid test script
  (`Array.from({length: 6}, () => Math.floor(Math.random() * 10)).join('')`);
* the delivery function `testSendVerificationCode` from
  `test-sendgrid-service-new.js`;
* the schema-migration functions `createVerificationCodesTable` and
  `ensureVerificationCodesTable` from the `ensure-verification-codes`
  migration script.

Randomness (`Math.random()`) is modelled by passing the drawn rational in
`[0, 1)` as an explicit parameter; database timestamps are natural numbers
(seconds); the external provider is a parameter returning an outcome value.
-/

namespace Tixoraa

/-- Row of the `verification_codes` table as created by
`createVerificationCodesTable` in `test-verification-code.js`:
`id SERIAL PRIMARY KEY, email VARCHAR, code VARCHAR, type VARCHAR DEFAULT
'verification', created_at TIMESTAMP DEFAULT NOW(), expires_at TIMESTAMP
DEFAULT (NOW() + INTERVAL '30 minutes'), used BOOLEAN DEFAULT FALSE`. -/
structure Row where
  id : Nat
  email : String
  code : String
  typ : String
  createdAt : Nat
  expiresAt : Nat
  used : Bool
deriving Repr, DecidableEq

/-- State of the `verification_codes` table: the stored rows together with
the next value the `id SERIAL` sequence will assign. -/
structure Store where
  rows : List Row
  nextId : Nat
deriving Repr, DecidableEq

/-- Fresh table state: no rows, the `SERIAL` sequence starts at 1. -/
def emptyStore : Store := ⟨[], 1⟩

/-- Embedding of `saveVerificationCode(email, code, type)`: the `INSERT`
stores `email`, `code` and `type` and lets `created_at` default to `NOW()`
and `expires_at` to `NOW() + INTERVAL '30 minutes'`; the generated `id` is
returned. -/
def saveVerificationCode (s : Store) (now : Nat) (email code typ : String) :
    Store × Nat :=
  (⟨s.rows ++ [⟨s.nextId, email, code, typ, now, now + 30 * 60, false⟩],
    s.nextId + 1⟩, s.nextId)

/-- The `WHERE` clause of the lookup in `checkVerificationCode`:
`email = $1 AND code = $2 AND type = 'verification' AND expires_at > NOW()
AND used = FALSE`. -/
def rowMatches (now : Nat) (email code : String) (r : Row) : Bool :=
  r.email == email && r.code == code && r.typ == "verification" &&
    decide (now < r.expiresAt) && r.used == false

/-- Combining step for `ORDER BY created_at DESC LIMIT 1`: keep whichever of
the two rows was created later. -/
def newerRow (b r : Row) : Row := if b.createdAt < r.createdAt then r else b

/-- Fold step selecting a row of maximal `created_at`. -/
def stepNewest (acc : Option Row) (r : Row) : Option Row :=
  match acc with
  | none => some r
  | some b => some (newerRow b r)

/-- Selection made by `ORDER BY created_at DESC LIMIT 1`: a row of maximal
`created_at` among the candidates, `none` when there are none. -/
def pickNewest (l : List Row) : Option Row := l.foldl stepNewest none

/-- Embedding of `checkVerificationCode(email, code)`: `SELECT id ... WHERE
email = $1 AND code = $2 AND type = 'verification' AND expires_at > NOW()
AND used = FALSE ORDER BY created_at DESC LIMIT 1`, returning the selected
`id` or `null` when no row qualifies. -/
def checkVerificationCode (s : Store) (now : Nat) (email code : String) :
    Option Nat :=
  (pickNewest (s.rows.filter (rowMatches now email code))).map Row.id

/-- Embedding of `markVerificationCodeAsUsed(id)`: `UPDATE
verification_codes SET used = TRUE WHERE id = $1`, then `return true`. -/
def markVerificationCodeAsUsed (s : Store) (i : Nat) : Store × Bool :=
  (⟨s.rows.map fun r => if r.id == i then { r with used := true } else r,
    s.nextId⟩, true)

/-- Store operations a caller can subsequently perform against the table
(there is no operation that clears the `used` flag). -/
inductive Op where
  | save (now : Nat) (email code typ : String)
  | markUsed (i : Nat)

/-- Effect of one operation on the table state. -/
def applyOp (s : Store) : Op → Store
  | Op.save now email code typ => (saveVerificationCode s now email code typ).1
  | Op.markUsed i => (markVerificationCodeAsUsed s i).1

/-- Effect of a sequence of operations on the table state. -/
def applyOps (s : Store) (ops : List Op) : Store := ops.foldl applyOp s

/-- Well-formedness of a table state: every stored `id` is below the
`SERIAL` sequence value, and ids are pairwise distinct (as `id` is the
primary key). Holds for every state reachable from `emptyStore`. -/
def WF (s : Store) : Prop :=
  (∀ r ∈ s.rows, r.id < s.nextId) ∧ (s.rows.map Row.id).Nodup

instance (s : Store) : Decidable (WF s) := by
  unfold WF; infer_instance

/-- Unfolding of the lookup predicate into its five conjuncts. -/
lemma rowMatches_iff (now : Nat) (email code : String) (r : Row) :
    rowMatches now email code r = true ↔
      r.email = email ∧ r.code = code ∧ r.typ = "verification" ∧
        now < r.expiresAt ∧ r.used = false := by
  simp [rowMatches, and_assoc]

lemma newerRow_left_le (b r : Row) : b.createdAt ≤ (newerRow b r).createdAt := by
  unfold newerRow; split <;> omega

lemma newerRow_right_le (b r : Row) : r.createdAt ≤ (newerRow b r).createdAt := by
  unfold newerRow; split <;> omega

lemma newerRow_cases (b r : Row) : newerRow b r = b ∨ newerRow b r = r := by
  unfold newerRow; split
  · exact Or.inr rfl
  · exact Or.inl rfl

/-- The fold underlying `pickNewest`, started from a seed row, yields a row
drawn from the seed or the list whose `created_at` dominates both. -/
lemma foldl_stepNewest_spec (l : List Row) :
    ∀ b : Row, ∃ r : Row, l.foldl stepNewest (some b) = some r ∧
      (r = b ∨ r ∈ l) ∧ b.createdAt ≤ r.createdAt ∧
      ∀ x ∈ l, x.createdAt ≤ r.createdAt := by
  induction l with
  | nil => exact fun b => ⟨b, rfl, Or.inl rfl, le_refl _, by simp⟩
  | cons a l ih =>
    intro b
    obtain ⟨r, hfold, hmem, hble, hall⟩ := ih (newerRow b a)
    refine ⟨r, by simpa [stepNewest] using hfold, ?_, ?_, ?_⟩
    · rcases hmem with h | h
      · rcases newerRow_cases b a with hc | hc
        · exact Or.inl (h.trans hc)
        · exact Or.inr (by simp [h, hc])
      · exact Or.inr (List.mem_cons_of_mem _ h)
    · exact le_trans (newerRow_left_le b a) hble
    · intro x hx
      rcases List.mem_cons.mp hx with rfl | hx
      · exact le_trans (newerRow_right_le b x) hble
      · exact hall x hx

/-- On a nonempty candidate list, `pickNewest` returns a member of maximal
`created_at`. -/
lemma pickNewest_spec (a : Row) (l : List Row) :
    ∃ r : Row, pickNewest (a :: l) = some r ∧ r ∈ a :: l ∧
      ∀ x ∈ a :: l, x.createdAt ≤ r.createdAt := by
  obtain ⟨r, hfold, hmem, hble, hall⟩ := foldl_stepNewest_spec l a
  refine ⟨r, by simpa [pickNewest, stepNewest] using hfold, ?_, ?_⟩
  · rcases hmem with rfl | h
    · exact List.mem_cons_self _ _
    · exact List.mem_cons_of_mem _ h
  · intro x hx
    rcases List.mem_cons.mp hx with rfl | hx
    · exact hble
    · exact hall x hx

lemma pickNewest_nil : pickNewest [] = none := rfl

/-- Soundness and newest-first selection of the lookup: a returned id
belongs to a row that passes the `WHERE` clause and whose `created_at` is
maximal among all passing rows. -/
lemma checkVerificationCode_sound (s : Store) (now : Nat) (email code : String)
    (i : Nat) (h : checkVerificationCode s now email code = some i) :
    ∃ r ∈ s.rows, r.id = i ∧ rowMatches now email code r = true ∧
      ∀ x ∈ s.rows, rowMatches now email code x = true →
        x.createdAt ≤ r.createdAt := by
  unfold checkVerificationCode at h
  rcases hf : s.rows.filter (rowMatches now email code) with _ | ⟨a, l⟩
  · rw [hf] at h; simp [pickNewest_nil] at h
  · rw [hf] at h
    obtain ⟨r, hpick, hmem, hall⟩ := pickNewest_spec a l
    rw [hpick] at h
    simp only [Option.map_some'] at h
    refine ⟨r, ?_, Option.some_injective _ h, ?_, ?_⟩
    · have : r ∈ s.rows.filter (rowMatches now email code) := hf ▸ hmem
      exact (List.mem_filter.mp this).1
    · have : r ∈ s.rows.filter (rowMatches now email code) := hf ▸ hmem
      exact (List.mem_filter.mp this).2
    · intro x hx hmx
      have : x ∈ s.rows.filter (rowMatches now email code) :=
        List.mem_filter.mpr ⟨hx, hmx⟩
      exact hall x (hf ▸ this)

/-- Completeness of the lookup: whenever some row passes the `WHERE`
clause, the lookup returns an id. -/
lemma checkVerificationCode_complete (s : Store) (now : Nat)
    (email code : String) (r : Row) (hr : r ∈ s.rows)
    (hm : rowMatches now email code r = true) :
    ∃ i, checkVerificationCode s now email code = some i := by
  have hmem : r ∈ s.rows.filter (rowMatches now email code) :=
    List.mem_filter.mpr ⟨hr, hm⟩
  rcases hf : s.rows.filter (rowMatches now email code) with _ | ⟨a, l⟩
  · rw [hf] at hmem; simp at hmem
  · obtain ⟨r', hpick, _, _⟩ := pickNewest_spec a l
    exact ⟨r'.id, by unfold checkVerificationCode; rw [hf, hpick]; rfl⟩

/-- Rejection characterization: the lookup returns `none` exactly when no
row passes the `WHERE` clause. -/
lemma checkVerificationCode_none_iff (s : Store) (now : Nat)
    (email code : String) :
    checkVerificationCode s now email code = none ↔
      ∀ r ∈ s.rows, rowMatches now email code r = false := by
  constructor
  · intro h r hr
    by_contra hm
    obtain ⟨i, hi⟩ := checkVerificationCode_complete s now email code r hr
      (by simpa using hm)
    rw [h] at hi; exact Option.noConfusion hi
  · intro h
    unfold checkVerificationCode
    have : s.rows.filter (rowMatches now email code) = [] := by
      rw [List.filter_eq_nil_iff]
      intro r hr
      simp [h r hr]
    rw [this, pickNewest_nil]; rfl

/-- Invariant "the row with id `i` has been consumed": the id is already
allocated and every stored row carrying it has `used = TRUE`. -/
def UsedForever (s : Store) (i : Nat) : Prop :=
  i < s.nextId ∧ ∀ r ∈ s.rows, r.id = i → r.used = true

/-- Marking an allocated id leaves every row with that id used. -/
lemma usedForever_mark (s : Store) (i : Nat) (h : i < s.nextId) :
    UsedForever (markVerificationCodeAsUsed s i).1 i := by
  refine ⟨h, ?_⟩
  intro r hr hid
  simp only [markVerificationCodeAsUsed, List.mem_map] at hr
  obtain ⟨r', _, hr'⟩ := hr
  by_cases hcase : r'.id = i
  · rw [← hr']; simp [hcase]
  · exfalso
    rw [← hr'] at hid
    simp [hcase] at hid

/-- No subsequent store operation can clear the `used` flag of a consumed
id: `save` allocates a strictly larger id, `markUsed` only sets flags. -/
lemma usedForever_applyOp (s : Store) (i : Nat) (o : Op)
    (h : UsedForever s i) : UsedForever (applyOp s o) i := by
  obtain ⟨hlt, hused⟩ := h
  cases o with
  | save now email code typ =>
    refine ⟨by simp [applyOp, saveVerificationCode]; omega, ?_⟩
    intro r hr hid
    simp only [applyOp, saveVerificationCode, List.mem_append,
      List.mem_singleton] at hr
    rcases hr with hr | rfl
    · exact hused r hr hid
    · simp at hid; omega
  | markUsed j =>
    refine ⟨hlt, ?_⟩
    intro r hr hid
    simp only [applyOp, markVerificationCodeAsUsed, List.mem_map] at hr
    obtain ⟨r', hr', hre⟩ := hr
    by_cases hcase : r'.id = j
    · rw [← hre]; simp [hcase]
    · rw [← hre] at hid ⊢
      simp [hcase] at hid ⊢
      exact hused r' hr' hid

lemma usedForever_applyOps (s : Store) (i : Nat) (ops : List Op)
    (h : UsedForever s i) : UsedForever (applyOps s ops) i := by
  induction ops generalizing s with
  | nil => exact h
  | cons o ops ih => exact ih (applyOp s o) (usedForever_applyOp s i o h)

/-- A consumed id is never reported by the redemption lookup. -/
lemma check_ne_of_usedForever (s : Store) (i : Nat) (h : UsedForever s i)
    (now : Nat) (email code : String) :
    checkVerificationCode s now email code ≠ some i := by
  intro hc
  obtain ⟨r, hr, hid, hm, _⟩ :=
    checkVerificationCode_sound s now email code i hc
  have hfalse : r.used = false := ((rowMatches_iff now email code r).mp hm).2.2.2.2
  have htrue : r.used = true := h.2 r hr hid
  rw [hfalse] at htrue
  exact Bool.noConfusion htrue

/-- Demonstration store used by the witnesses: a single unexpired, unused
code `123456` of type `verification` for `a@b.com`. -/
def demoStore : Store :=
  ⟨[⟨1, "a@b.com", "123456", "verification", 0, 1800, false⟩], 2⟩

/-- Demonstration store with two matching rows of different ages and one
row of a different type. -/
def demoStore2 : Store :=
  ⟨[⟨1, "a@b.com", "123456", "verification", 0, 1800, false⟩,
    ⟨2, "a@b.com", "123456", "verification", 100, 1900, false⟩,
    ⟨3, "a@b.com", "999999", "password_reset", 200, 2000, false⟩], 4⟩

/-- C1: for every stored verification code, the redemption lookup returns a
row exactly when some row of type `'verification'` with the supplied
`(email, code)` pair is unused and strictly unexpired; any returned id
denotes such a row; and once a stored row's id has been marked used, no
lookup after any further sequence of store operations ever returns it. -/
theorem checkVerificationCode_redeemable_iff_used_final
    (s : Store) (now : Nat) (email code : String) (hWF : WF s) :
    ((∃ i, checkVerificationCode s now email code = some i) ↔
      ∃ r ∈ s.rows, r.typ = "verification" ∧ r.used = false ∧
        now < r.expiresAt ∧ r.email = email ∧ r.code = code)
    ∧ (∀ i, checkVerificationCode s now email code = some i →
        ∃ r ∈ s.rows, r.id = i ∧ r.typ = "verification" ∧ r.used = false ∧
          now < r.expiresAt ∧ r.email = email ∧ r.code = code)
    ∧ (∀ i, (∃ r ∈ s.rows, r.id = i) →
        ∀ (ops : List Op) (now2 : Nat) (email2 code2 : String),
          checkVerificationCode
              (applyOps (markVerificationCodeAsUsed s i).1 ops)
              now2 email2 code2 ≠ some i) := by
  refine ⟨⟨?_, ?_⟩, ?_, ?_⟩
  · rintro ⟨i, hi⟩
    obtain ⟨r, hr, _, hm, _⟩ := checkVerificationCode_sound s now email code i hi
    obtain ⟨h1, h2, h3, h4, h5⟩ := (rowMatches_iff now email code r).mp hm
    exact ⟨r, hr, h3, h5, h4, h1, h2⟩
  · rintro ⟨r, hr, h3, h5, h4, h1, h2⟩
    exact checkVerificationCode_complete s now email code r hr
      ((rowMatches_iff now email code r).mpr ⟨h1, h2, h3, h4, h5⟩)
  · intro i hi
    obtain ⟨r, hr, hid, hm, _⟩ :=
      checkVerificationCode_sound s now email code i hi
    obtain ⟨h1, h2, h3, h4, h5⟩ := (rowMatches_iff now email code r).mp hm
    exact ⟨r, hr, hid, h3, h5, h4, h1, h2⟩
  · rintro i ⟨r, hr, rfl⟩ ops now2 email2 code2
    exact check_ne_of_usedForever _ _
      (usedForever_applyOps _ _ ops (usedForever_mark s r.id (hWF.1 r hr)))
      now2 email2 code2

/-- Witness for C1 on `demoStore`: after marking row 1 used, a later lookup
with the original email and code no longer returns id 1. -/
theorem checkVerificationCode_redeemable_iff_used_final_witness :
    checkVerificationCode
        (applyOps (markVerificationCodeAsUsed demoStore 1).1 [])
        10 "a@b.com" "123456" ≠ some 1 :=
  (checkVerificationCode_redeemable_iff_used_final demoStore 10 "a@b.com"
      "123456" (by decide)).2.2 1
    (by decide : ∃ r ∈ demoStore.rows, r.id = 1) [] 10 "a@b.com" "123456"

/-- C5: `markVerificationCodeAsUsed` is idempotent — a second invocation on
the same id leaves the table in the same state and again reports `true`. -/
theorem markVerificationCodeAsUsed_idempotent (s : Store) (i : Nat) :
    markVerificationCodeAsUsed (markVerificationCodeAsUsed s i).1 i =
      markVerificationCodeAsUsed s i
    ∧ (markVerificationCodeAsUsed s i).2 = true := by
  refine ⟨?_, rfl⟩
  unfold markVerificationCodeAsUsed
  simp only [Prod.mk.injEq, Store.mk.injEq, List.map_map, and_true]
  refine List.map_congr_left ?_
  intro r _
  by_cases h : r.id = i <;> simp [Function.comp, h]

/-- C6: the redemption lookup selects newest-first — any returned id
denotes a row passing the `WHERE` clause whose `created_at` is maximal
among all passing rows. -/
theorem checkVerificationCode_newest_first (s : Store) (now : Nat)
    (email code : String) (i : Nat)
    (h : checkVerificationCode s now email code = some i) :
    ∃ r ∈ s.rows, r.id = i ∧ rowMatches now email code r = true ∧
      ∀ x ∈ s.rows, rowMatches now email code x = true →
        x.createdAt ≤ r.createdAt :=
  checkVerificationCode_sound s now email code i h

/-- Witness for C6 on `demoStore2`: with two valid rows for the same pair,
the lookup returns id 2, the row created later. -/
theorem checkVerificationCode_newest_first_witness :
    checkVerificationCode demoStore2 10 "a@b.com" "123456" = some 2 ∧
      ∃ r ∈ demoStore2.rows, r.id = 2 ∧
        rowMatches 10 "a@b.com" "123456" r = true ∧
        ∀ x ∈ demoStore2.rows, rowMatches 10 "a@b.com" "123456" x = true →
          x.createdAt ≤ r.createdAt :=
  ⟨by decide,
    checkVerificationCode_newest_first demoStore2 10 "a@b.com" "123456" 2
      (by decide)⟩

/-- C7: rejection is unified — the lookup answers `none` exactly when every
row with the supplied key and type `'verification'` is expired or already
used (vacuously, when no such row exists at all); in particular any two
rejected queries receive the identical answer. -/
theorem checkVerificationCode_unified_rejection (s : Store) (now : Nat)
    (email code : String) :
    checkVerificationCode s now email code = none ↔
      ∀ r ∈ s.rows, r.email = email → r.code = code →
        r.typ = "verification" → (r.expiresAt ≤ now ∨ r.used = true) := by
  rw [checkVerificationCode_none_iff]
  constructor
  · intro h r hr h1 h2 h3
    have := h r hr
    by_contra hc
    push_neg at hc
    rw [(by simp [Bool.not_eq_true] : rowMatches now email code r = false ↔
      ¬ rowMatches now email code r = true)] at this
    exact this ((rowMatches_iff now email code r).mpr
      ⟨h1, h2, h3, by omega, by simpa using hc.2⟩)
  · intro h r hr
    rw [(by simp [Bool.not_eq_true] : rowMatches now email code r = false ↔
      ¬ rowMatches now email code r = true)]
    intro hm
    obtain ⟨h1, h2, h3, h4, h5⟩ := (rowMatches_iff now email code r).mp hm
    rcases h r hr h1 h2 h3 with h6 | h6
    · omega
    · rw [h5] at h6; exact Bool.noConfusion h6

/-- Witness for C7: an unknown code against the empty table, an expired row
and an already-used row all produce the identical answer `none`. -/
theorem checkVerificationCode_unified_rejection_witness :
    checkVerificationCode emptyStore 10 "a@b.com" "123456" = none ∧
    checkVerificationCode
      ⟨[⟨1, "a@b.com", "123456", "verification", 0, 1800, false⟩], 2⟩
      2000 "a@b.com" "123456" = none ∧
    checkVerificationCode
      ⟨[⟨1, "a@b.com", "123456", "verification", 0, 1800, true⟩], 2⟩
      10 "a@b.com" "123456" = none :=
  ⟨(checkVerificationCode_unified_rejection emptyStore 10 "a@b.com"
      "123456").mpr (by decide),
   (checkVerificationCode_unified_rejection _ 2000 "a@b.com" "123456").mpr
      (by decide),
   (checkVerificationCode_unified_rejection _ 10 "a@b.com" "123456").mpr
      (by decide)⟩

/-- C9: the lookup only ever reports rows whose `type` column equals
`'verification'`; a stored row of any other type is never returned, whatever
the query. -/
theorem checkVerificationCode_type_restricted (s : Store) (hWF : WF s)
    (r : Row) (hr : r ∈ s.rows) (htyp : r.typ ≠ "verification")
    (now : Nat) (email code : String) :
    checkVerificationCode s now email code ≠ some r.id := by
  intro hc
  obtain ⟨r', hr', hid, hm, _⟩ :=
    checkVerificationCode_sound s now email code r.id hc
  have : r' = r := List.inj_on_of_nodup_map hWF.2 hr' hr hid
  rw [this] at hm
  exact htyp ((rowMatches_iff now email code r).mp hm).2.2.1

/-- Witness for C9 on `demoStore2`: the unused, unexpired row 3 with type
`'password_reset'` is never returned, even for its own email and code. -/
theorem checkVerificationCode_type_restricted_witness :
    checkVerificationCode demoStore2 10 "a@b.com" "999999" ≠ some 3 :=
  checkVerificationCode_type_restricted demoStore2 (by decide)
    ⟨3, "a@b.com", "999999", "password_reset", 200, 2000, false⟩
    (by decide) (by decide) 10 "a@b.com" "999999"

/-- C10: `markVerificationCodeAsUsed` always reports `true`, and on an id
no stored row carries it returns the table unchanged together with `true` —
indistinguishable from marking an existing row. -/
theorem markVerificationCodeAsUsed_missing_id (s : Store) (i : Nat) :
    (markVerificationCodeAsUsed s i).2 = true
    ∧ ((∀ r ∈ s.rows, r.id ≠ i) →
        markVerificationCodeAsUsed s i = (s, true)) := by
  refine ⟨rfl, ?_⟩
  intro h
  unfold markVerificationCodeAsUsed
  simp only [Prod.mk.injEq, and_true]
  have : s.rows.map (fun r => if r.id == i then { r with used := true } else r)
      = s.rows := by
    rw [List.map_congr_left (g := id) ?_, List.map_id]
    intro r hr
    simp [h r hr]
  rw [this]

/-- Witness for C10: marking the unallocated id 7 in `demoStore` is a
no-op reporting `true`. -/
theorem markVerificationCodeAsUsed_missing_id_witness :
    markVerificationCodeAsUsed demoStore 7 = (demoStore, true) :=
  (markVerificationCodeAsUsed_missing_id demoStore 7).2 (by decide)

/-- C4 (failing input): the store performs redemption as two separate
queries, so in the interleaving where two concurrent attempts both run
`checkVerificationCode` before either runs `markVerificationCodeAsUsed`,
both attempts observe the valid row id 1 and both mark operations report
success — a double redemption, where the claim demands exactly one
success. -/
theorem checkVerificationCode_double_redemption_race :
    checkVerificationCode demoStore 10 "a@b.com" "123456" = some 1
    ∧ checkVerificationCode demoStore 10 "a@b.com" "123456" = some 1
    ∧ (markVerificationCodeAsUsed demoStore 1).2 = true
    ∧ (markVerificationCodeAsUsed
        (markVerificationCodeAsUsed demoStore 1).1 1).2 = true := by
  decide

/-- Existence flags of the schema objects the `ensure-verification-codes`
migration manages: the `verification_codes` table and its four secondary
indexes on `email`, `user_id`, `code` and `expires_at`. -/
structure Schema where
  tableExists : Bool
  idxEmail : Bool
  idxUserId : Bool
  idxCode : Bool
  idxExpiresAt : Bool
deriving Repr, DecidableEq

/-- Fresh database: neither the table nor any index exists. -/
def freshSchema : Schema := ⟨false, false, false, false, false⟩

/-- Schema with the table and all four secondary indexes present. -/
def fullSchema : Schema := ⟨true, true, true, true, true⟩

/-- Embedding of `createVerificationCodesTable` from the
`ensure-verification-codes` migration: when the
`information_schema.tables` probe finds the table, return `true` at once;
otherwise run `CREATE TABLE IF NOT EXISTS` followed by the four
`CREATE INDEX IF NOT EXISTS` statements and return `true`. -/
def createVerificationCodesTable (sc : Schema) : Schema × Bool :=
  if sc.tableExists then (sc, true) else (fullSchema, true)

/-- Embedding of `ensureVerificationCodesTable`: pings the database, runs
`createVerificationCodesTable`, validates the structure with read-only
queries, and returns `true`. -/
def ensureVerificationCodesTable (sc : Schema) : Schema × Bool :=
  ((createVerificationCodesTable sc).1, true)

/-- Iterated application of `ensureVerificationCodesTable`, as on repeated
process starts. -/
def ensureIter : Nat → Schema → Schema
  | 0, sc => sc
  | n + 1, sc => ensureIter n (ensureVerificationCodesTable sc).1

lemma ensure_tableExists (sc : Schema) :
    ((ensureVerificationCodesTable sc).1).tableExists = true := by
  unfold ensureVerificationCodesTable createVerificationCodesTable
  split
  · simpa using by assumption
  · rfl

lemma ensure_ensure (sc : Schema) :
    (ensureVerificationCodesTable (ensureVerificationCodesTable sc).1).1 =
      (ensureVerificationCodesTable sc).1 := by
  by_cases h : sc.tableExists = true
  · simp [ensureVerificationCodesTable, createVerificationCodesTable, h]
  · simp [ensureVerificationCodesTable, createVerificationCodesTable, h,
      fullSchema]

/-- C8: `ensureVerificationCodesTable` is idempotent — any positive number
of invocations leaves the schema exactly as a single invocation does; on a
fresh database a single invocation creates the table and all four secondary
indexes; and every invocation completes reporting `true`. -/
theorem ensureVerificationCodesTable_idempotent :
    (∀ (sc : Schema) (n : Nat), 0 < n →
      ensureIter n sc = ensureIter 1 sc)
    ∧ ensureVerificationCodesTable freshSchema = (fullSchema, true)
    ∧ ∀ sc : Schema, (ensureVerificationCodesTable sc).2 = true := by
  refine ⟨?_, by decide, fun _ => rfl⟩
  intro sc n hn
  induction n generalizing sc with
  | zero => omega
  | succ n ih =>
    rcases Nat.eq_zero_or_pos n with rfl | hpos
    · rfl
    · show ensureIter n (ensureVerificationCodesTable sc).1 = ensureIter 1 sc
      rw [ih (ensureVerificationCodesTable sc).1 hpos]
      show ensureIter 0 (ensureVerificationCodesTable
        (ensureVerificationCodesTable sc).1).1 = ensureIter 1 sc
      rw [ensure_ensure]
      rfl

/-- Witness for C8: three process starts on a fresh database leave the same
schema as one, namely the table with all four indexes. -/
theorem ensureVerificationCodesTable_idempotent_witness :
    ensureIter 3 freshSchema = ensureIter 1 freshSchema ∧
      ensureIter 1 freshSchema = fullSchema :=
  ⟨ensureVerificationCodesTable_idempotent.1 freshSchema 3 (by decide),
    by decide⟩

/-- ASCII digit character for a value below 10, as produced by JavaScript
number-to-string conversion. -/
def digitChar (d : Nat) : Char := Char.ofNat (48 + d)

/-- Fuelled base-10 digit extraction, least significant digit first. -/
def decDigitsAux : Nat → Nat → List Nat
  | 0, _ => []
  | fuel + 1, n => if n = 0 then [] else n % 10 :: decDigitsAux fuel (n / 10)

/-- Base-10 digits of a natural number, least significant first. -/
def decDigits (n : Nat) : List Nat := decDigitsAux n n

lemma decDigitsAux_eq_digits (fuel : Nat) :
    ∀ n : Nat, n ≤ fuel → decDigitsAux fuel n = Nat.digits 10 n := by
  induction fuel with
  | zero =>
    intro n hn
    obtain rfl : n = 0 := Nat.le_zero.mp hn
    simp [decDigitsAux]
  | succ fuel ih =>
    intro n hn
    by_cases h : n = 0
    · subst h; simp [decDigitsAux]
    · rw [Nat.digits_def' (by norm_num : 1 < 10) (Nat.pos_of_ne_zero h)]
      show (if n = 0 then [] else n % 10 :: decDigitsAux fuel (n / 10)) = _
      rw [if_neg h, ih (n / 10) ?_]
      have := Nat.div_lt_self (Nat.pos_of_ne_zero h) (by norm_num : 1 < 10)
      omega

lemma decDigits_eq_digits (n : Nat) : decDigits n = Nat.digits 10 n :=
  decDigitsAux_eq_digits n n le_rfl

/-- Decimal representation of a natural number as a string, most
significant digit first — the value of JavaScript `n.toString()` for a
nonnegative integer `n`. -/
def natToString (n : Nat) : String :=
  if n = 0 then "0" else String.mk ((decDigits n).reverse.map digitChar)

/-- Integer produced by `Math.floor(100000 + Math.random() * 900000)` when
the `Math.random()` draw is `r`. -/
def genNat (r : ℚ) : Nat := (⌊(100000 : ℚ) + r * 900000⌋).toNat

/-- Embedding of `generateVerificationCode` from
`test-verification-code.js`:
`Math.floor(100000 + Math.random() * 900000).toString()`, with the
`Math.random()` draw `r` passed explicitly. -/
def generateVerificationCode (r : ℚ) : String := natToString (genNat r)

/-- Single digit produced by `Math.floor(Math.random() * 10)` when the
`Math.random()` draw is `r`. -/
def randDigit (r : ℚ) : Nat := (⌊r * 10⌋).toNat

/-- Embedding of `generateVerificationCode` from the unnamed SendGrid test
script: `Array.from({length: 6}, () => Math.floor(Math.random() * 10))
.join('')`, with the six `Math.random()` draws passed explicitly. -/
def generateVerificationCodeJoined (r0 r1 r2 r3 r4 r5 : ℚ) : String :=
  String.mk [digitChar (randDigit r0), digitChar (randDigit r1),
    digitChar (randDigit r2), digitChar (randDigit r3),
    digitChar (randDigit r4), digitChar (randDigit r5)]

lemma genNat_bounds (r : ℚ) (h0 : 0 ≤ r) (h1 : r < 1) :
    100000 ≤ genNat r ∧ genNat r ≤ 999999 := by
  unfold genNat
  have hlow : (100000 : ℤ) ≤ ⌊(100000 : ℚ) + r * 900000⌋ := by
    apply Int.le_floor.mpr
    push_cast
    nlinarith
  have hhigh : ⌊(100000 : ℚ) + r * 900000⌋ < 1000000 := by
    apply Int.floor_lt.mpr
    push_cast
    nlinarith
  omega

lemma digitChar_isDigit (d : Nat) (hd : d < 10) : (digitChar d).isDigit = true := by
  interval_cases d <;> decide

lemma digitChar_ne_zero_char (d : Nat) (hd : d < 10) (h0 : d ≠ 0) :
    digitChar d ≠ ⟨48, by decide⟩ := by
  interval_cases d <;> simp_all <;> decide

/-- Decimal string of a six-digit number: length six, all characters ASCII
digits, leading character nonzero. -/
lemma natToString_six (n : Nat) (h1 : 100000 ≤ n) (h2 : n ≤ 999999) :
    (natToString n).length = 6
    ∧ (∀ c ∈ (natToString n).data, c.isDigit = true)
    ∧ (natToString n).data.head? ≠ some (Char.ofNat 48) := by
  have hn : n ≠ 0 := by omega
  have hne : Nat.digits 10 n ≠ [] := Nat.digits_ne_nil_iff_ne_zero.mpr hn
  have h5 : 10 ^ 5 ≤ n := by
    have : (10 : Nat) ^ 5 = 100000 := by norm_num
    omega
  have h6 : n < 10 ^ (5 + 1) := by
    have : (10 : Nat) ^ (5 + 1) = 1000000 := by norm_num
    omega
  have hlen : (Nat.digits 10 n).length = 6 := by
    rw [Nat.digits_len 10 n (by norm_num) hn,
      Nat.log_eq_of_pow_le_of_lt_pow h5 h6]
  unfold natToString
  rw [if_neg hn, decDigits_eq_digits]
  refine ⟨?_, ?_, ?_⟩
  · show ((Nat.digits 10 n).reverse.map digitChar).length = 6
    simp [hlen]
  · intro c hc
    simp only [String.data, List.mem_map, List.mem_reverse] at hc
    obtain ⟨d, hd, rfl⟩ := hc
    exact digitChar_isDigit d (Nat.digits_lt_base (by norm_num) hd)
  · show ((Nat.digits 10 n).reverse.map digitChar).head? ≠ _
    rw [List.head?_map, List.head?_reverse,
      List.getLast?_eq_getLast _ hne]
    simp only [Option.map_some', ne_eq, Option.some.injEq]
    have hmem := List.getLast_mem hne
    exact digitChar_ne_zero_char _
      (Nat.digits_lt_base (by norm_num) hmem)
      (Nat.getLast_digit_ne_zero 10 hn)

lemma randDigit_lt (r : ℚ) (_h0 : 0 ≤ r) (h1 : r < 1) : randDigit r < 10 := by
  unfold randDigit
  have : ⌊r * 10⌋ < 10 := by
    apply Int.floor_lt.mpr
    push_cast
    nlinarith
  omega

/-- C2 counterexample: the per-digit generator of the unnamed SendGrid test
script, on the all-zero draws, returns `"000000"` — leading character `'0'`
and numeric value 0, outside `[100000, 999999]`, refuting the claim for
that cited implementation. -/
theorem generateVerificationCodeJoined_leading_zero :
    generateVerificationCodeJoined 0 0 0 0 0 0 = "000000"
    ∧ "000000".data.head? = some (Char.ofNat 48) := by
  constructor
  · have h : randDigit 0 = 0 := by
      unfold randDigit
      norm_num
    unfold generateVerificationCodeJoined
    rw [h]
    decide
  · decide

/-- C2 amended: the generator of `test-verification-code.js` always returns
the decimal string of an integer in `[100000, 999999]` — six ASCII digits,
no leading zero; the per-digit generator of the unnamed SendGrid test
script returns a string of exactly six ASCII digits, but its value ranges
over `["000000".."999999"]` and may carry leading zeros. -/
theorem generateVerificationCode_six_digits :
    (∀ r : ℚ, 0 ≤ r → r < 1 →
      100000 ≤ genNat r ∧ genNat r ≤ 999999
      ∧ generateVerificationCode r = natToString (genNat r)
      ∧ (generateVerificationCode r).length = 6
      ∧ (∀ c ∈ (generateVerificationCode r).data, c.isDigit = true)
      ∧ (generateVerificationCode r).data.head? ≠ some (Char.ofNat 48))
    ∧ (∀ r0 r1 r2 r3 r4 r5 : ℚ,
        0 ≤ r0 → r0 < 1 → 0 ≤ r1 → r1 < 1 → 0 ≤ r2 → r2 < 1 →
        0 ≤ r3 → r3 < 1 → 0 ≤ r4 → r4 < 1 → 0 ≤ r5 → r5 < 1 →
        (generateVerificationCodeJoined r0 r1 r2 r3 r4 r5).length = 6
        ∧ ∀ c ∈ (generateVerificationCodeJoined r0 r1 r2 r3 r4 r5).data,
            c.isDigit = true) := by
  constructor
  · intro r h0 h1
    obtain ⟨hlo, hhi⟩ := genNat_bounds r h0 h1
    obtain ⟨hl, hd, hh⟩ := natToString_six (genNat r) hlo hhi
    exact ⟨hlo, hhi, rfl, hl, hd, hh⟩
  · intro r0 r1 r2 r3 r4 r5 a0 b0 a1 b1 a2 b2 a3 b3 a4 b4 a5 b5
    refine ⟨rfl, ?_⟩
    intro c hc
    simp only [generateVerificationCodeJoined, String.data,
      List.mem_cons, List.not_mem_nil, or_false] at hc
    rcases hc with rfl | rfl | rfl | rfl | rfl | rfl
    · exact digitChar_isDigit _ (randDigit_lt r0 a0 b0)
    · exact digitChar_isDigit _ (randDigit_lt r1 a1 b1)
    · exact digitChar_isDigit _ (randDigit_lt r2 a2 b2)
    · exact digitChar_isDigit _ (randDigit_lt r3 a3 b3)
    · exact digitChar_isDigit _ (randDigit_lt r4 a4 b4)
    · exact digitChar_isDigit _ (randDigit_lt r5 a5 b5)

/-- Witness for the amended C2 at the draws `1/2` and six zeros. -/
theorem generateVerificationCode_six_digits_witness :
    (100000 ≤ genNat (1/2) ∧ genNat (1/2) ≤ 999999
      ∧ generateVerificationCode (1/2) = natToString (genNat (1/2))
      ∧ (generateVerificationCode (1/2)).length = 6
      ∧ (∀ c ∈ (generateVerificationCode (1/2)).data, c.isDigit = true)
      ∧ (generateVerificationCode (1/2)).data.head? ≠ some (Char.ofNat 48))
    ∧ ((generateVerificationCodeJoined 0 0 0 0 0 0).length = 6
      ∧ ∀ c ∈ (generateVerificationCodeJoined 0 0 0 0 0 0).data,
          c.isDigit = true) :=
  ⟨generateVerificationCode_six_digits.1 (1/2) (by norm_num) (by norm_num),
    generateVerificationCode_six_digits.2 0 0 0 0 0 0
      le_rfl (by norm_num) le_rfl (by norm_num) le_rfl (by norm_num)
      le_rfl (by norm_num) le_rfl (by norm_num) le_rfl (by norm_num)⟩

/-- Result shape of the delivery function in
`test-sendgrid-service-new.js`: `{ code, success }`. -/
structure DeliveryResult where
  code : String
  success : Bool
deriving Repr, DecidableEq

/-- Outcome of the external provider call `mailService.send(msg)`: a
2xx status on acceptance, or a thrown error (authentication failure,
unverified sender, rate limit, network failure) carrying a message. -/
inductive ProviderOutcome where
  | ok (statusCode : Nat)
  | err (message : String)
deriving Repr, DecidableEq

/-- Embedding of `testSendVerificationCode` from
`test-sendgrid-service-new.js`: generate a code with the draw `r1`, submit
the email through the provider, and return `{ code, success: true }` on
acceptance; the `catch` block instead returns
`{ code: generateVerificationCode(), success: false }`, generating a fresh
code with the second draw `r2`. -/
def testSendVerificationCode (r1 r2 : ℚ)
    (provider : String → String → ProviderOutcome) (toEmail : String) :
    DeliveryResult :=
  let verificationCode := generateVerificationCode r1
  match provider toEmail verificationCode with
  | ProviderOutcome.ok _ => { code := verificationCode, success := true }
  | ProviderOutcome.err _ =>
    { code := generateVerificationCode r2, success := false }

/-- Provider that rejects every submission, as with an unverified sender. -/
def failingProvider : String → String → ProviderOutcome :=
  fun _ _ => ProviderOutcome.err "403 Forbidden"

lemma genNat_zero : genNat 0 = 100000 := by
  unfold genNat
  norm_num
  rfl

lemma genNat_half : genNat (1/2) = 550000 := by
  unfold genNat
  have h : (100000 : ℚ) + (1/2) * 900000 = ((550000 : ℤ) : ℚ) := by norm_num
  rw [h, Int.floor_intCast]
  rfl

/-- C3 counterexample: with draw `0` the code embedded in the attempted
email is `"100000"`, but on provider error the returned result carries the
freshly drawn `"550000"` — `success = false` comes with a different code
than the originally generated one. -/
theorem testSendVerificationCode_fresh_code_on_error :
    (testSendVerificationCode 0 (1/2) failingProvider "user@test.com").success
        = false
    ∧ (testSendVerificationCode 0 (1/2) failingProvider "user@test.com").code
        ≠ generateVerificationCode 0 := by
  have h1 : generateVerificationCode 0 = "100000" := by
    unfold generateVerificationCode
    rw [genNat_zero]
    decide
  have h2 : generateVerificationCode (1/2) = "550000" := by
    unfold generateVerificationCode
    rw [genNat_half]
    decide
  have hres : testSendVerificationCode 0 (1/2) failingProvider "user@test.com"
      = { code := generateVerificationCode (1/2), success := false } := rfl
  rw [hres, h1, h2]
  exact ⟨rfl, by decide⟩

/-- C3 amended: the delivery function never throws past its boundary — it
totally returns a `DeliveryResult`; on provider error the result is
`success = false` together with a freshly generated six-digit code (drawn
by the `catch` block), which need not equal the code embedded in the
attempted email; on acceptance it returns the embedded code with
`success = true`. -/
theorem testSendVerificationCode_no_throw (r1 r2 : ℚ)
    (provider : String → String → ProviderOutcome) (toEmail : String) :
    (∀ msg, provider toEmail (generateVerificationCode r1) =
        ProviderOutcome.err msg →
      testSendVerificationCode r1 r2 provider toEmail =
        { code := generateVerificationCode r2, success := false })
    ∧ ∀ k, provider toEmail (generateVerificationCode r1) =
        ProviderOutcome.ok k →
      testSendVerificationCode r1 r2 provider toEmail =
        { code := generateVerificationCode r1, success := true } := by
  constructor
  · intro msg h
    simp only [testSendVerificationCode]
    rw [h]
  · intro k h
    simp only [testSendVerificationCode]
    rw [h]

/-- Witness for the amended C3: against the failing provider the result is
`success = false` with the code of the second draw. -/
theorem testSendVerificationCode_no_throw_witness :
    testSendVerificationCode 0 (1/2) failingProvider "user@test.com" =
      { code := generateVerificationCode (1/2), success := false } :=
  (testSendVerificationCode_no_throw 0 (1/2) failingProvider
      "user@test.com").1 "403 Forbidden" rfl

end Tixoraa
